import Mathlib

/-!
Verification of the filesystem utility layer implemented in
`src/bin/pgcopydb/file_utils.c`.

The C code is shallowly embedded: the filesystem is an association list
from path strings to file data (contents as a byte list, plus owner,
group and mode), and every syscall that can fail for reasons outside the
filesystem's visible state (I/O errors, cross-device rename, chown or
chmod refusal) is driven by an explicit environment record `Env` of
injected outcomes.  Each embedded function mirrors the control flow of
its C counterpart line by line; external helpers that are not part of
this repository (`realpath`, `join_path_components`,
`canonicalize_path`, `get_env_copy`) are taken as oracle parameters.
-/

namespace FileUtils

/-- MAXPGPATH, the PostgreSQL fixed path-buffer size used throughout
`file_utils.c`. -/
def MAXPGPATH : Nat := 1024

/-- The errno values that the code in `file_utils.c` inspects. -/
inductive Errno where
  | ENOENT
  | ENOTDIR
  | EXDEV
  | EACCES
  | EPERM
deriving DecidableEq, Repr

/-- Data of one on-disk file: byte contents (a file may contain embedded
null bytes, hence a list of bytes and not a string) together with the
stat identity triple (st_uid, st_gid, st_mode). -/
structure FileData where
  contents : List Nat
  uid : Nat
  gid : Nat
  mode : Nat
deriving DecidableEq, Repr

/-- The visible filesystem state: a finite map from paths to file data,
as an association list. -/
abbrev FS := List (String × FileData)

/-- Look a path up in the filesystem. -/
def fsGet : FS → String → Option FileData
  | [], _ => none
  | (q, d) :: rest, p => if q = p then some d else fsGet rest p

/-- Remove every binding of a path from the filesystem. -/
def fsErase : FS → String → FS
  | [], _ => []
  | (q, d) :: rest, p =>
      if q = p then fsErase rest p else (q, d) :: fsErase rest p

/-- Bind a path to file data, replacing any previous binding. -/
def fsSet (fs : FS) (p : String) (d : FileData) : FS :=
  (p, d) :: fsErase fs p

/-- Injected outcomes for the syscalls whose failure does not follow
from the visible filesystem state.  A `none` / `true` field means the
corresponding call behaves normally. -/
structure Env where
  procUid : Nat
  procGid : Nat
  pathVar : Option String
  renameErrno : Option Errno
  openWOk : Bool
  writeBytes : Option Nat
  readOk : Bool
  statOk : Bool
  chownOk : Bool
  chmodOk : Bool
  unlinkErrno : Option Errno
deriving Repr

/-- `file_exists`: `access(filename, F_OK) != -1`; errors only make it
return false (interesting errno values are merely logged). -/
def file_exists (fs : FS) (filename : String) : Bool :=
  (fsGet fs filename).isSome

/-- `write_file`: open with `"wb"` (create or truncate, mode 0644),
`fwrite` the first `fileSize` bytes of `data`, `fclose`.  A `none`
`writeBytes` is a fully successful write; `some k` injects a failure
(short `fwrite` or failing `fclose`) after `k` bytes reached the file,
which leaves the created, possibly partially written file in place. -/
def write_file (e : Env) (data : List Nat) (fileSize : Nat)
    (filePath : String) (fs : FS) : Bool × FS :=
  if e.openWOk = false then (false, fs)
  else
    let base : FileData :=
      match fsGet fs filePath with
      | some d => { d with contents := [] }
      | none => { contents := [], uid := e.procUid, gid := e.procGid, mode := 420 }
    match e.writeBytes with
    | none => (true, fsSet fs filePath { base with contents := data.take fileSize })
    | some k =>
        (false, fsSet fs filePath { base with contents := data.take (min k fileSize) })

/-- `read_file` composed with `read_file_internal`: open read-only
(fails iff the file is absent or `readOk` is injected false), measure
the size with fseek/ftell, allocate size + 1 bytes, read the whole
contents and append a null terminator.  Returns the buffer together
with the reported `fileSize`. -/
def read_file (e : Env) (filePath : String) (fs : FS) :
    Option (List Nat × Nat) :=
  match fsGet fs filePath with
  | none => none
  | some d =>
      if e.readOk then some (d.contents ++ [0], d.contents.length) else none

/-- The raw `unlink(2)` call: ENOENT when the path is absent, otherwise
the injected errno if any, otherwise removal. -/
def unlink_sys (e : Env) (fs : FS) (p : String) : Option Errno × FS :=
  match fsGet fs p with
  | none => (some Errno.ENOENT, fs)
  | some _ =>
      match e.unlinkErrno with
      | none => (none, fsErase fs p)
      | some er => (some er, fs)

/-- `unlink_file`: failure of `unlink(2)` with ENOENT or ENOTDIR is
forgiven; every other failure is reported. -/
def unlink_file (e : Env) (filename : String) (fs : FS) : Bool × FS :=
  match unlink_sys e fs filename with
  | (none, fs') => (true, fs')
  | (some er, fs') =>
      if er ≠ Errno.ENOENT ∧ er ≠ Errno.ENOTDIR then (false, fs')
      else (true, fs')

/-- `file_is_empty`: true only when the file exists, `read_file`
succeeds and the reported size is zero. -/
def file_is_empty (e : Env) (fs : FS) (filename : String) : Bool :=
  if file_exists fs filename then
    match read_file e filename fs with
    | none => false
    | some (_, fileSize) => fileSize == 0
  else false

/-- The `chown(2)` call: sets owner and group of an existing path,
unless a failure is injected. -/
def chown_sys (e : Env) (fs : FS) (p : String) (uid gid : Nat) : Bool × FS :=
  if e.chownOk then
    match fsGet fs p with
    | some d => (true, fsSet fs p { d with uid := uid, gid := gid })
    | none => (false, fs)
  else (false, fs)

/-- The `chmod(2)` call: sets the mode of an existing path, unless a
failure is injected. -/
def chmod_sys (e : Env) (fs : FS) (p : String) (mode : Nat) : Bool × FS :=
  if e.chmodOk then
    match fsGet fs p with
    | some d => (true, fsSet fs p { d with mode := mode })
    | none => (false, fs)
  else (false, fs)

/-- `duplicate_file`: read the source fully, fail if the destination
exists, `write_file` the buffer, then `stat` the source and apply its
uid/gid with `chown` and its mode with `chmod` to the destination.
When `stat`, `chown` or `chmod` fails the destination is unlinked; a
`write_file` failure returns immediately without unlinking. -/
def duplicate_file (e : Env) (sourcePath destinationPath : String) (fs : FS) :
    Bool × FS :=
  match read_file e sourcePath fs with
  | none => (false, fs)
  | some (fileContents, fileSize) =>
      if file_exists fs destinationPath then (false, fs)
      else
        match write_file e fileContents fileSize destinationPath fs with
        | (false, fs1) => (false, fs1)
        | (true, fs1) =>
            match (if e.statOk then fsGet fs1 sourcePath else none) with
            | none => (false, (unlink_file e destinationPath fs1).2)
            | some st =>
                match chown_sys e fs1 destinationPath st.uid st.gid with
                | (chownOk2, fs2) =>
                    match chmod_sys e fs2 destinationPath st.mode with
                    | (chmodOk2, fs3) =>
                        if chownOk2 = false ∨ chmodOk2 = false then
                          (false, (unlink_file e destinationPath fs3).2)
                        else (true, fs3)

/-- The `rename(2)` call: either the injected errno, or ENOENT when the
source is absent, or an atomic move of the binding. -/
def rename_sys (e : Env) (fs : FS) (src dst : String) : Option Errno × FS :=
  match e.renameErrno with
  | some er => (some er, fs)
  | none =>
      match fsGet fs src with
      | none => (some Errno.ENOENT, fs)
      | some d => (none, fsSet (fsErase fs src) dst d)

/-- The comparison `strncmp(sourcePath, destinationPath, MAXPGPATH) == 0`:
the two C strings agree on their first MAXPGPATH bytes. -/
def strncmp_eq (a b : String) : Bool :=
  a.data.take MAXPGPATH == b.data.take MAXPGPATH

/-- `move_file`: no-op when the paths compare equal, fail when the
source is absent or the destination present, then try `rename`; on
EXDEV fall back to `duplicate_file` followed by a best-effort
`unlink_file` of the source whose result is discarded. -/
def move_file (e : Env) (sourcePath destinationPath : String) (fs : FS) :
    Bool × FS :=
  if strncmp_eq sourcePath destinationPath then (true, fs)
  else if file_exists fs sourcePath = false then (false, fs)
  else if file_exists fs destinationPath then (false, fs)
  else
    match rename_sys e fs sourcePath destinationPath with
    | (none, fs') => (true, fs')
    | (some er, fs') =>
        if er ≠ Errno.EXDEV then (false, fs')
        else
          match duplicate_file e sourcePath destinationPath fs' with
          | (false, fs2) => (false, fs2)
          | (true, fs2) => (true, (unlink_file e sourcePath fs2).2)

/-- `strlcpy(dst, src, size)`: the destination receives at most
`size - 1` bytes of the source, always null-terminated; the return
value (the length of the source) is modelled separately by
`String.length`. -/
def strlcpyStr (src : String) (size : Nat) : String :=
  String.mk (src.data.take (size - 1))

/-- `normalize_filename`: when the file exists, resolve it with the
`realpath` oracle `rp` and copy the result into the destination buffer
of the stated `size`, failing when resolution fails or the resolved
path does not fit; when the file does not exist, copy the name through
a MAXPGPATH-bounded `strlcpy` pair, ignoring the stated `size`. -/
def normalize_filename (rp : String → Option String) (fs : FS)
    (filename : String) (size : Nat) : Option String :=
  if file_exists fs filename then
    match rp filename with
    | none => none
    | some realPath =>
        if size ≤ realPath.length then none else some realPath
  else some (strlcpyStr (strlcpyStr filename MAXPGPATH) MAXPGPATH)

/-- The splitting loop of `search_path`: scan for the next path-list
separator, null-terminate there, and continue after it.  `cur` is the
segment accumulated so far, in reverse. -/
def pathSegsGo : List Char → List Char → List (List Char)
  | [], cur => [cur.reverse]
  | c :: rest, cur =>
      if c = ':' then cur.reverse :: pathSegsGo rest []
      else pathSegsGo rest (c :: cur)

/-- The directory segments of a PATH-like value, in order, including
the empty trailing segment produced by a trailing separator. -/
def pathSegments (cs : List Char) : List (List Char) :=
  pathSegsGo cs []

/-- `search_path`: copy the PATH variable (oracle `e.pathVar`), split
it on the separator, and for each segment build the candidate with
`join_path_components` (oracle `join`, truncating into a MAXPGPATH
buffer) and `canonicalize_path` (oracle `canon`), recording it when it
exists on disk. -/
def search_path (e : Env) (join : String → String → String)
    (canon : String → String) (filename : String) (fs : FS) :
    Option (List String) :=
  match e.pathVar with
  | none => none
  | some pathlist =>
      some ((pathSegments pathlist.data).foldl
        (fun ms seg =>
          if file_exists fs
              (canon (strlcpyStr (join (String.mk seg) filename) MAXPGPATH)) then
            ms ++ [strlcpyStr
              (canon (strlcpyStr (join (String.mk seg) filename) MAXPGPATH))
              MAXPGPATH]
          else ms)
        [])

/-- The loop of `search_path_deduplicate_symlinks`: resolve each entry
with the `realpath` oracle `rp` (failure is fatal), skip it when the
resolved string is already among the kept entries, otherwise store it
through `strlcpy` and fail when the resolved path does not fit in
MAXPGPATH. -/
def spdsLoop (rp : String → Option String) :
    List String → List String → Option (List String)
  | [], dedup => some dedup
  | currentPath :: rest, dedup =>
      match rp currentPath with
      | none => none
      | some currentRealPath =>
          if currentRealPath ∈ dedup then spdsLoop rp rest dedup
          else if MAXPGPATH ≤ currentRealPath.length then none
          else spdsLoop rp rest (dedup ++ [currentRealPath])

/-- `search_path_deduplicate_symlinks` started on an empty target
set. -/
def search_path_deduplicate_symlinks (rp : String → Option String)
    (results : List String) : Option (List String) :=
  spdsLoop rp results []

/-- Modelled from the spec: first-occurrence deduplication, keeping a
resolved string exactly when no previously kept entry equals it. -/
def specDedupFirst (l : List String) : List String :=
  l.foldl (fun kept r => if r ∈ kept then kept else kept ++ [r]) []

/-- `read_file` instrumented with (buffer allocations, buffer frees)
performed during the call.  The successful path hands the single
malloc-ed buffer to the caller unfreed; failures injected by `readOk`
are modelled as failing before the allocation. -/
def read_file_mem (e : Env) (filePath : String) (fs : FS) :
    Option (List Nat × Nat) × Nat × Nat :=
  match fsGet fs filePath with
  | none => (none, 0, 0)
  | some d =>
      if e.readOk then (some (d.contents ++ [0], d.contents.length), 1, 0)
      else (none, 0, 0)

/-- `file_is_empty` instrumented with the allocation and free counts of
the buffer obtained from `read_file`: the code returns without ever
calling `free` on it. -/
def file_is_empty_mem (e : Env) (fs : FS) (filename : String) :
    Bool × Nat × Nat :=
  if file_exists fs filename then
    match read_file_mem e filename fs with
    | (none, a, f) => (false, a, f)
    | (some (_, fileSize), a, f) => (fileSize == 0, a, f)
  else (false, 0, 0)

/-- `duplicate_file` instrumented with the allocation and free counts
of the buffer obtained from `read_file`: the destination-already-exists
early return skips the `free(fileContents)` that the later paths
perform. -/
def duplicate_file_mem (e : Env) (sourcePath destinationPath : String)
    (fs : FS) : Bool × Nat × Nat :=
  match read_file_mem e sourcePath fs with
  | (none, a, f) => (false, a, f)
  | (some (fileContents, fileSize), a, f) =>
      if file_exists fs destinationPath then (false, a, f)
      else
        match write_file e fileContents fileSize destinationPath fs with
        | (wok, fs1) =>
            if wok = false then (false, a, f + 1)
            else
              match (if e.statOk then fsGet fs1 sourcePath else none) with
              | none => (false, a, f + 1)
              | some st =>
                  match chown_sys e fs1 destinationPath st.uid st.gid with
                  | (chownOk2, fs2) =>
                      match chmod_sys e fs2 destinationPath st.mode with
                      | (chmodOk2, _) =>
                          (decide (chownOk2 = true ∧ chmodOk2 = true), a, f + 1)

/-- A fully healthy environment: every syscall behaves normally. -/
def envOk : Env :=
  { procUid := 1000, procGid := 1000, pathVar := some "", renameErrno := none,
    openWOk := true, writeBytes := none, readOk := true, statOk := true,
    chownOk := true, chmodOk := true, unlinkErrno := none }

/-- Basic lookup lemma for `fsErase`. -/
theorem fsGet_fsErase (fs : FS) (p q : String) :
    fsGet (fsErase fs p) q = if p = q then none else fsGet fs q := by
  induction fs with
  | nil => simp [fsErase, fsGet]
  | cons hd tl ih =>
      obtain ⟨r, dr⟩ := hd
      by_cases hr : r = p
      · subst hr
        by_cases hq : r = q
        · subst hq
          simp [fsErase, fsGet, ih]
        · simp [fsErase, fsGet, ih, hq]
      · by_cases hq : r = q
        · subst hq
          have hpr : ¬ p = r := fun h => hr h.symm
          simp [fsErase, fsGet, hr, ih, hpr]
        · by_cases hpq : p = q
          · subst hpq
            simp [fsErase, fsGet, hr, hq, ih]
          · simp [fsErase, fsGet, hr, hq, ih, hpq]

/-- Basic lookup lemma for `fsSet`. -/
theorem fsGet_fsSet (fs : FS) (p q : String) (d : FileData) :
    fsGet (fsSet fs p d) q = if p = q then some d else fsGet fs q := by
  simp only [fsSet, fsGet, fsGet_fsErase]
  by_cases h : p = q <;> simp [h]

/-- `strlcpy` into a buffer of size `n` leaves a source shorter than
`n` bytes unchanged. -/
theorem strlcpyStr_eq_self (s : String) (n : Nat) (h : s.length ≤ n - 1) :
    strlcpyStr s n = s := by
  obtain ⟨l⟩ := s
  simp only [strlcpyStr]
  rw [List.take_of_length_le h]

/-- Byte-identical C strings compare equal under
`strncmp(…, …, MAXPGPATH)`. -/
theorem strncmp_eq_refl (a : String) : strncmp_eq a a = true := by
  simp [strncmp_eq]

/-- C strings whose MAXPGPATH-bounded comparison differs are different
strings. -/
theorem ne_of_strncmp_eq_false {a b : String} (h : strncmp_eq a b = false) :
    a ≠ b := by
  intro hab
  rw [hab, strncmp_eq_refl] at h
  exact Bool.true_eq_false.mp h

/-- C6: `move_file` called with byte-identical source and destination
paths is a successful no-op that never touches the filesystem, even
when the path does not exist, because the same-path test short-circuits
before the source-existence check. -/
theorem move_file_same_path_noop (e : Env) (fs : FS) (a : String) :
    move_file e a a fs = (true, fs) := by
  simp [move_file, strncmp_eq_refl]

/-- C3: a successful `write_file` of the byte sequence `B` of length
`L` followed by `read_file` on the same path returns a buffer whose
first `L` bytes are `B` and whose reported length is `L`. -/
theorem write_read_roundtrip (e : Env) (B : List Nat) (L : Nat) (p : String)
    (fs fs' : FS) (hL : L = B.length)
    (hw : write_file e B L p fs = (true, fs'))
    (hread : e.readOk = true) :
    read_file e p fs' = some (B ++ [0], L) ∧ (B ++ [0]).take L = B := by
  subst hL
  cases hOpen : e.openWOk with
  | false => rw [write_file, hOpen] at hw; simp at hw
  | true =>
      cases hwb : e.writeBytes with
      | some k => rw [write_file, hOpen] at hw; simp [hwb] at hw
      | none =>
          rw [write_file, hOpen] at hw
          simp only [hwb, Bool.true_eq_false, if_false, List.take_length,
            Prod.mk.injEq, true_and] at hw
          subst hw
          refine ⟨?_, List.take_left B [0]⟩
          simp [read_file, fsGet_fsSet, hread]

/-- Witness for C3 at a concrete write of three bytes. -/
theorem write_read_roundtrip_witness :
    read_file envOk "/tmp/p"
        [("/tmp/p", ⟨[1, 2, 3], 1000, 1000, 420⟩)] = some ([1, 2, 3] ++ [0], 3) ∧
      ([1, 2, 3] ++ [0]).take 3 = [1, 2, 3] :=
  write_read_roundtrip envOk [1, 2, 3] 3 "/tmp/p" []
    [("/tmp/p", ⟨[1, 2, 3], 1000, 1000, 420⟩)] (by decide) (by decide) (by decide)

/-- C10: `unlink_file` returns failure exactly when the file is present
and the `unlink(2)` call fails with an errno other than ENOENT and
ENOTDIR; in every other situation, in particular whenever the path is
already absent, it returns success. -/
theorem unlink_file_failure_iff (e : Env) (fs : FS) (p : String) :
    (unlink_file e p fs).1 = false ↔
      ∃ er, (fsGet fs p).isSome ∧ e.unlinkErrno = some er ∧
        er ≠ Errno.ENOENT ∧ er ≠ Errno.ENOTDIR := by
  unfold unlink_file unlink_sys
  cases hg : fsGet fs p with
  | none => simp
  | some d =>
      cases hu : e.unlinkErrno with
      | none => simp
      | some er =>
          by_cases h1 : er = Errno.ENOENT <;> by_cases h2 : er = Errno.ENOTDIR <;>
            simp [h1, h2]

/-- Counterexample to C7: when the destination exists and the source is
the byte-identical path, `move_file` returns success, not failure. -/
theorem move_file_existing_destination_success :
    (move_file envOk "/tmp/x" "/tmp/x" [("/tmp/x", ⟨[1], 0, 0, 420⟩)]).1 = true ∧
      fsGet [("/tmp/x", ⟨[1], 0, 0, 420⟩)] "/tmp/x" = some ⟨[1], 0, 0, 420⟩ := by
  constructor
  · simp [move_file, strncmp_eq_refl]
  · rfl

/-- C7 as amended: whenever the destination exists, `duplicate_file`
fails, and `move_file` fails provided the source and destination paths
differ within the compared MAXPGPATH prefix; in both cases the
filesystem — in particular the pre-existing destination — is left
exactly as it was.  `move_file` on a source identical to the existing
destination instead succeeds as a no-op. -/
theorem move_duplicate_fail_existing_destination (e : Env) (fs : FS)
    (src dst : String) (hdst : (fsGet fs dst).isSome = true) :
    (strncmp_eq src dst = false → move_file e src dst fs = (false, fs)) ∧
      duplicate_file e src dst fs = (false, fs) := by
  constructor
  · intro hneq
    rw [move_file, hneq]
    cases hs : file_exists fs src with
    | false => simp
    | true => simp [file_exists, hdst]
  · rw [duplicate_file]
    cases hr : read_file e src fs with
    | none => simp
    | some v =>
        obtain ⟨buf, sz⟩ := v
        simp [file_exists, hdst]

/-- Witness for the amended C7 at a concrete existing destination. -/
theorem move_duplicate_fail_existing_destination_witness :
    (strncmp_eq "/tmp/z" "/tmp/y" = false →
        move_file envOk "/tmp/z" "/tmp/y"
          [("/tmp/y", ⟨[2], 0, 0, 420⟩)] = (false, [("/tmp/y", ⟨[2], 0, 0, 420⟩)])) ∧
      duplicate_file envOk "/tmp/z" "/tmp/y"
        [("/tmp/y", ⟨[2], 0, 0, 420⟩)] = (false, [("/tmp/y", ⟨[2], 0, 0, 420⟩)]) :=
  move_duplicate_fail_existing_destination envOk
    [("/tmp/y", ⟨[2], 0, 0, 420⟩)] "/tmp/z" "/tmp/y" (by decide)

/-- A 1024-byte path name, one byte too long for a MAXPGPATH buffer. -/
def longName : String := String.mk (List.replicate MAXPGPATH 'a')

/-- Counterexample to C8: on a nonexistent path of MAXPGPATH bytes,
`normalize_filename` succeeds but the copy is truncated to the first
MAXPGPATH - 1 bytes by `strlcpy`, so the path is not copied through
unchanged. -/
theorem normalize_filename_truncates_long_name :
    normalize_filename (fun _ => none) [] longName 2048 =
        some (String.mk (List.replicate 1023 'a')) ∧
      String.mk (List.replicate 1023 'a') ≠ longName := by
  constructor
  · show some (strlcpyStr (strlcpyStr longName MAXPGPATH) MAXPGPATH) = _
    simp only [longName, strlcpyStr, MAXPGPATH, List.take_replicate]
    norm_num
  · intro h
    have hd := congrArg String.length h
    simp only [longName, String.length_mk, List.length_replicate, MAXPGPATH] at hd
    omega

/-- C8 as amended: `normalize_filename` on a nonexistent path of fewer
than MAXPGPATH bytes succeeds and copies the path through unchanged;
the stated destination size is not consulted on this branch (the copy
is bounded by the fixed MAXPGPATH constant instead), and paths of
MAXPGPATH bytes or more are silently truncated. -/
theorem normalize_filename_nonexistent_id (rp : String → Option String)
    (fs : FS) (filename : String) (size : Nat)
    (habs : fsGet fs filename = none)
    (hlen : filename.length ≤ MAXPGPATH - 1) :
    normalize_filename rp fs filename size = some filename := by
  rw [normalize_filename]
  simp only [file_exists, habs, Option.isSome_none, Bool.false_eq_true, if_false]
  rw [strlcpyStr_eq_self filename MAXPGPATH hlen,
    strlcpyStr_eq_self filename MAXPGPATH hlen]

/-- Witness for the amended C8 on a concrete nonexistent path. -/
theorem normalize_filename_nonexistent_id_witness :
    normalize_filename (fun _ => none) [] "/etc/new.conf" 64 =
      some "/etc/new.conf" :=
  normalize_filename_nonexistent_id (fun _ => none) [] "/etc/new.conf" 64
    (by decide) (by decide)

/-- Evidence for C9: `file_is_empty` allocates the `read_file` buffer
and never frees it, and `duplicate_file` leaks the same buffer on its
destination-already-exists path — one allocation, zero frees, against
the specified exactly-one free. -/
theorem read_buffer_never_freed :
    file_is_empty_mem envOk [("/tmp/f", ⟨[], 0, 0, 420⟩)] "/tmp/f" =
        (true, 1, 0) ∧
      duplicate_file_mem envOk "/tmp/src" "/tmp/dst"
        [("/tmp/src", ⟨[7], 0, 0, 420⟩), ("/tmp/dst", ⟨[9], 0, 0, 420⟩)] =
        (false, 1, 0) := by
  constructor
  · rfl
  · rfl

/-- The environment of C2's counterexample: `write_file`'s `fwrite`
fails after a single byte has reached the destination. -/
def envShortWrite : Env := { envOk with writeBytes := some 1 }

/-- Counterexample to C2: when writing the buffer fails partway,
`duplicate_file` returns failure but the partially-written destination
file is left on disk, not removed. -/
theorem duplicate_file_short_write_leaves_destination :
    (duplicate_file envShortWrite "/mnt/a" "/mnt/b"
        [("/mnt/a", ⟨[7, 8], 0, 0, 420⟩)]).1 = false ∧
      fsGet (duplicate_file envShortWrite "/mnt/a" "/mnt/b"
          [("/mnt/a", ⟨[7, 8], 0, 0, 420⟩)]).2 "/mnt/b" =
        some ⟨[7], 1000, 1000, 420⟩ := by
  constructor
  · rfl
  · rfl

/-- C2 as amended: `duplicate_file` is all-or-nothing for the
stat/chown/chmod phase only — when the buffer has been fully written
and applying the source's ownership or mode (or stat-ing the source)
fails, the destination is removed and the call fails; a `write_file`
failure instead leaves the partially-written destination in place. -/
theorem duplicate_file_removes_destination_on_identity_failure (e : Env)
    (fs : FS) (src dst : String) (d : FileData)
    (hsrc : fsGet fs src = some d) (hdst : fsGet fs dst = none)
    (hread : e.readOk = true) (hopen : e.openWOk = true)
    (hwrite : e.writeBytes = none)
    (hfail : e.statOk = false ∨ e.chownOk = false ∨ e.chmodOk = false)
    (hunlink : e.unlinkErrno = none) :
    (duplicate_file e src dst fs).1 = false ∧
      fsGet (duplicate_file e src dst fs).2 dst = none := by
  have hne : src ≠ dst := by
    intro h
    rw [h, hdst] at hsrc
    exact Option.noConfusion hsrc
  have hdstsrc : ¬ dst = src := fun h => hne h.symm
  rw [duplicate_file]
  simp only [read_file, hsrc, hread, if_true, file_exists, hdst,
    Option.isSome_none, Bool.false_eq_true, if_false]
  rw [write_file, hopen]
  simp only [hwrite, hdst, Bool.true_eq_false, if_false, List.take_left]
  rcases hfail with hstat | hchown | hchmod
  · simp [hstat, unlink_file, unlink_sys, fsGet_fsSet, hunlink, fsGet_fsErase]
  · cases hstatv : e.statOk with
    | false =>
        simp [hstatv, unlink_file, unlink_sys, fsGet_fsSet, hunlink, fsGet_fsErase]
    | true =>
        simp [hstatv, fsGet_fsSet, hdstsrc, hsrc, chown_sys, hchown, chmod_sys,
          unlink_file, unlink_sys, hunlink, fsGet_fsErase]
        cases hchmodv : e.chmodOk <;>
          simp [fsGet_fsSet, unlink_file, unlink_sys, hunlink, fsGet_fsErase]
  · cases hstatv : e.statOk with
    | false =>
        simp [hstatv, unlink_file, unlink_sys, fsGet_fsSet, hunlink, fsGet_fsErase]
    | true =>
        simp [hstatv, fsGet_fsSet, hdstsrc, hsrc, chown_sys, hchmod, chmod_sys,
          unlink_file, unlink_sys, hunlink, fsGet_fsErase]
        cases hchownv : e.chownOk <;>
          simp [fsGet_fsSet, unlink_file, unlink_sys, hunlink, fsGet_fsErase]

/-- The environment of C2's witness: `chmod` on the destination is
refused. -/
def envChmodFail : Env := { envOk with chmodOk := false }

/-- Witness for the amended C2 at a concrete chmod failure. -/
theorem duplicate_file_removes_destination_witness :
    (duplicate_file envChmodFail "/mnt/a" "/mnt/b"
        [("/mnt/a", ⟨[7, 8], 0, 0, 420⟩)]).1 = false ∧
      fsGet (duplicate_file envChmodFail "/mnt/a" "/mnt/b"
          [("/mnt/a", ⟨[7, 8], 0, 0, 420⟩)]).2 "/mnt/b" = none :=
  duplicate_file_removes_destination_on_identity_failure envChmodFail
    [("/mnt/a", ⟨[7, 8], 0, 0, 420⟩)] "/mnt/a" "/mnt/b" ⟨[7, 8], 0, 0, 420⟩
    (by decide) (by decide) (by decide) (by decide) (by decide)
    (Or.inr (Or.inr (by decide))) (by decide)

/-- The environment of C1's counterexample: `rename(2)` fails with
EXDEV and the best-effort `unlink(2)` of the source fails with
EACCES. -/
def envExdevUnlinkFail : Env :=
  { envOk with renameErrno := some Errno.EXDEV,
               unlinkErrno := some Errno.EACCES }

/-- Counterexample to C1 as stated: the result of the final
`unlink_file(sourcePath)` is discarded, so when the source unlink
fails the buffered-copy fallback still returns success while the
source file continues to exist. -/
theorem move_file_crossdevice_unlink_failure_source_remains :
    (move_file envExdevUnlinkFail "/mnt1/a" "/mnt2/b"
        [("/mnt1/a", ⟨[1, 2], 3, 4, 5⟩)]).1 = true ∧
      fsGet (move_file envExdevUnlinkFail "/mnt1/a" "/mnt2/b"
          [("/mnt1/a", ⟨[1, 2], 3, 4, 5⟩)]).2 "/mnt1/a" = some ⟨[1, 2], 3, 4, 5⟩ := by
  constructor
  · rfl
  · rfl

/-- C1 as amended: when `rename` fails with EXDEV and the buffered-copy
fallback runs to completion under otherwise healthy I/O — in
particular, the best-effort source unlink, whose result the code
discards, succeeds — a successful `move_file a b` leaves `a` absent
and `b` bound to exactly the pre-move contents, owner, group and mode
of `a`.  When the source unlink fails, `move_file` still returns
success with `a` left in place. -/
theorem move_file_crossdevice_preserves (e : Env) (fs : FS) (a b : String)
    (d : FileData)
    (hneq : strncmp_eq a b = false)
    (hsrc : fsGet fs a = some d)
    (hdst : fsGet fs b = none)
    (hren : e.renameErrno = some Errno.EXDEV)
    (hread : e.readOk = true) (hopen : e.openWOk = true)
    (hwrite : e.writeBytes = none) (hstat : e.statOk = true)
    (hchown : e.chownOk = true) (hchmod : e.chmodOk = true)
    (hunlink : e.unlinkErrno = none) :
    (move_file e a b fs).1 = true ∧
      fsGet (move_file e a b fs).2 a = none ∧
      fsGet (move_file e a b fs).2 b = some d := by
  have hab : a ≠ b := ne_of_strncmp_eq_false hneq
  have hba : ¬ b = a := fun h => hab h.symm
  rw [move_file, hneq]
  simp only [file_exists, hsrc, hdst, Option.isSome_some, Option.isSome_none,
    Bool.false_eq_true, if_false, Bool.true_eq_false, if_true, Bool.false_eq_true]
  rw [rename_sys, hren]
  simp only [ne_eq, not_true_eq_false, if_false, reduceCtorEq]
  rw [duplicate_file]
  simp only [read_file, hsrc, hread, if_true, file_exists, hdst,
    Option.isSome_none, Bool.false_eq_true, if_false]
  rw [write_file, hopen]
  simp only [hwrite, hdst, Bool.true_eq_false, if_false, List.take_left]
  simp only [hstat, if_true, fsGet_fsSet, hba, if_false, hsrc, chown_sys,
    hchown, chmod_sys, hchmod, if_true]
  refine ⟨?_, ?_, ?_⟩ <;>
    simp [unlink_file, unlink_sys, fsGet_fsSet, fsGet_fsErase, hba, hab, hsrc,
      hunlink]

/-- The environment of C1's witness: `rename(2)` fails with EXDEV and
everything else behaves normally. -/
def envExdev : Env := { envOk with renameErrno := some Errno.EXDEV }

/-- Witness for C1 at a concrete cross-device move. -/
theorem move_file_crossdevice_preserves_witness :
    (move_file envExdev "/mnt1/a" "/mnt2/b"
        [("/mnt1/a", ⟨[1, 2], 3, 4, 5⟩)]).1 = true ∧
      fsGet (move_file envExdev "/mnt1/a" "/mnt2/b"
          [("/mnt1/a", ⟨[1, 2], 3, 4, 5⟩)]).2 "/mnt1/a" = none ∧
      fsGet (move_file envExdev "/mnt1/a" "/mnt2/b"
          [("/mnt1/a", ⟨[1, 2], 3, 4, 5⟩)]).2 "/mnt2/b" = some ⟨[1, 2], 3, 4, 5⟩ :=
  move_file_crossdevice_preserves envExdev [("/mnt1/a", ⟨[1, 2], 3, 4, 5⟩)]
    "/mnt1/a" "/mnt2/b" ⟨[1, 2], 3, 4, 5⟩ (by decide) (by decide) (by decide)
    (by decide) (by decide) (by decide) (by decide) (by decide) (by decide)
    (by decide) (by decide)

/-- First-occurrence deduplication never introduces a duplicate. -/
theorem dedupFoldl_nodup (l : List String) (acc : List String)
    (h : acc.Nodup) :
    (l.foldl (fun kept r => if r ∈ kept then kept else kept ++ [r]) acc).Nodup := by
  induction l generalizing acc with
  | nil => simpa
  | cons r rest ih =>
      simp only [List.foldl_cons]
      by_cases hr : r ∈ acc
      · simpa [hr] using ih acc h
      · have hacc : (acc ++ [r]).Nodup := by
          simp [List.nodup_append, h, hr]
        simpa [hr] using ih (acc ++ [r]) hacc

/-- Everything in the accumulator survives first-occurrence
deduplication. -/
theorem mem_dedupFoldl_of_mem_acc (l : List String) (acc : List String)
    (a : String) (h : a ∈ acc) :
    a ∈ l.foldl (fun kept r => if r ∈ kept then kept else kept ++ [r]) acc := by
  induction l generalizing acc with
  | nil => simpa
  | cons r rest ih =>
      simp only [List.foldl_cons]
      by_cases hr : r ∈ acc
      · simpa [hr] using ih acc h
      · have : a ∈ acc ++ [r] := List.mem_append_left _ h
        simpa [hr] using ih (acc ++ [r]) this

/-- Every input element is represented in the deduplicated output. -/
theorem mem_dedupFoldl_of_mem (l : List String) (acc : List String)
    (a : String) (h : a ∈ l) :
    a ∈ l.foldl (fun kept r => if r ∈ kept then kept else kept ++ [r]) acc := by
  induction l generalizing acc with
  | nil => simp at h
  | cons r rest ih =>
      simp only [List.foldl_cons]
      rcases List.mem_cons.mp h with rfl | hrest
      · by_cases hr : a ∈ acc
        · simpa [hr] using mem_dedupFoldl_of_mem_acc rest acc a hr
        · have : a ∈ acc ++ [a] := List.mem_append_right _ (by simp)
          simpa [hr] using mem_dedupFoldl_of_mem_acc rest (acc ++ [a]) a this
      · by_cases hr : r ∈ acc
        · simpa [hr] using ih acc hrest
        · simpa [hr] using ih (acc ++ [r]) hrest

/-- Unfolding of the deduplication loop when `realpath` fails on the
head entry. -/
theorem spdsLoop_cons_none (rp : String → Option String) (q : String)
    (rest acc : List String) (hq : rp q = none) :
    spdsLoop rp (q :: rest) acc = none := by
  rw [spdsLoop, hq]

/-- Unfolding of the deduplication loop when `realpath` resolves the
head entry. -/
theorem spdsLoop_cons_some (rp : String → Option String) (q r : String)
    (rest acc : List String) (hq : rp q = some r) :
    spdsLoop rp (q :: rest) acc =
      (if r ∈ acc then spdsLoop rp rest acc
       else if MAXPGPATH ≤ r.length then none
       else spdsLoop rp rest (acc ++ [r])) := by
  rw [spdsLoop, hq]

/-- If the deduplication loop completes, every entry was resolved by
`realpath`. -/
theorem spdsLoop_some_isSome (rp : String → Option String)
    (l : List String) (acc out : List String)
    (h : spdsLoop rp l acc = some out) : ∀ p ∈ l, (rp p).isSome := by
  induction l generalizing acc with
  | nil => simp
  | cons q rest ih =>
      intro p hp
      cases hq : rp q with
      | none =>
          rw [spdsLoop_cons_none rp q rest acc hq] at h
          exact absurd h (by simp)
      | some r =>
          rw [spdsLoop_cons_some rp q r rest acc hq] at h
          rcases List.mem_cons.mp hp with rfl | hp2
          · simp [hq]
          · by_cases hr : r ∈ acc
            · rw [if_pos hr] at h
              exact ih acc h p hp2
            · rw [if_neg hr] at h
              by_cases hlen : MAXPGPATH ≤ r.length
              · rw [if_pos hlen] at h
                exact absurd h (by simp)
              · rw [if_neg hlen] at h
                exact ih (acc ++ [r]) h p hp2

/-- When every entry resolves to a real path shorter than MAXPGPATH,
the deduplication loop computes exactly the first-occurrence
deduplication of the resolved paths. -/
theorem spdsLoop_map (rp : String → Option String) (l : List String)
    (rs acc : List String) (hres : l.map rp = rs.map some)
    (hlen : ∀ r ∈ rs, r.length < MAXPGPATH) :
    spdsLoop rp l acc =
      some (rs.foldl (fun kept r => if r ∈ kept then kept else kept ++ [r]) acc) := by
  induction l generalizing rs acc with
  | nil =>
      cases rs with
      | nil => simp [spdsLoop]
      | cons r rs2 => simp at hres
  | cons q rest ih =>
      cases rs with
      | nil => simp at hres
      | cons r rs2 =>
          simp only [List.map_cons, List.cons.injEq] at hres
          obtain ⟨hq, hrest⟩ := hres
          have hr1 : r.length < MAXPGPATH := hlen r (by simp)
          have hle : ¬ MAXPGPATH ≤ r.length := by omega
          rw [spdsLoop_cons_some rp q r rest acc hq]
          by_cases hr : r ∈ acc
          · rw [if_pos hr,
              ih rs2 acc hrest (fun x hx => hlen x (by simp [hx]))]
            simp [hr]
          · rw [if_neg hr, if_neg hle,
              ih rs2 (acc ++ [r]) hrest (fun x hx => hlen x (by simp [hx]))]
            simp [hr]

/-- C4: when every match resolves below the MAXPGPATH bound,
`search_path_deduplicate_symlinks` succeeds and returns, in original
order, exactly the resolved real-path strings with first-occurrence
deduplication — in particular the output has no duplicate and each
resolved real path occurs exactly once — and any `realpath` resolution
failure makes the whole operation fail. -/
theorem search_path_dedup_correct (rp : String → Option String)
    (results rs : List String)
    (hres : results.map rp = rs.map some)
    (hlen : ∀ r ∈ rs, r.length < MAXPGPATH) :
    search_path_deduplicate_symlinks rp results = some (specDedupFirst rs) ∧
      (specDedupFirst rs).Nodup ∧
      (∀ r ∈ rs, (specDedupFirst rs).count r = 1) ∧
      (∀ rp2 : String → Option String, (∃ p ∈ results, rp2 p = none) →
        search_path_deduplicate_symlinks rp2 results = none) := by
  refine ⟨?_, ?_, ?_, ?_⟩
  · exact spdsLoop_map rp results rs [] hres hlen
  · exact dedupFoldl_nodup rs [] (by simp)
  · intro r hr
    exact List.count_eq_one_of_mem (dedupFoldl_nodup rs [] (by simp))
      (mem_dedupFoldl_of_mem rs [] r hr)
  · rintro rp2 ⟨p, hp, hnone⟩
    cases hout : search_path_deduplicate_symlinks rp2 results with
    | none => rfl
    | some out =>
        have hsome := spdsLoop_some_isSome rp2 results [] out hout p hp
        rw [hnone] at hsome
        simp at hsome

/-- A concrete `realpath` table: `/bin` is a symlink to `/usr/bin`, so
both copies of `tool` resolve to the same real path. -/
def rpTable : String → Option String := fun p =>
  if p = "/bin/tool" then some "/usr/bin/tool"
  else if p = "/usr/bin/tool" then some "/usr/bin/tool"
  else none

/-- Witness for C4: two matches resolving to the same real path
collapse to a single canonical entry. -/
theorem search_path_dedup_correct_witness :
    search_path_deduplicate_symlinks rpTable ["/bin/tool", "/usr/bin/tool"] =
        some (specDedupFirst ["/usr/bin/tool", "/usr/bin/tool"]) ∧
      (specDedupFirst ["/usr/bin/tool", "/usr/bin/tool"]).Nodup ∧
      (∀ r ∈ ["/usr/bin/tool", "/usr/bin/tool"],
        (specDedupFirst ["/usr/bin/tool", "/usr/bin/tool"]).count r = 1) ∧
      (∀ rp2 : String → Option String,
        (∃ p ∈ ["/bin/tool", "/usr/bin/tool"], rp2 p = none) →
          search_path_deduplicate_symlinks rp2 ["/bin/tool", "/usr/bin/tool"] = none) :=
  search_path_dedup_correct rpTable ["/bin/tool", "/usr/bin/tool"]
    ["/usr/bin/tool", "/usr/bin/tool"] (by decide) (by decide)

/-- The recording loop of `search_path` appends, in order, exactly the
existing candidates. -/
theorem search_fold_aux (fs : FS) (join : String → String → String)
    (canon : String → String) (filename : String) (l : List (List Char))
    (acc : List String)
    (hjoin : ∀ seg ∈ l, (join (String.mk seg) filename).length < MAXPGPATH)
    (hcanon : ∀ seg ∈ l, (canon (join (String.mk seg) filename)).length < MAXPGPATH) :
    l.foldl
      (fun ms seg =>
        if file_exists fs
            (canon (strlcpyStr (join (String.mk seg) filename) MAXPGPATH)) then
          ms ++ [strlcpyStr
            (canon (strlcpyStr (join (String.mk seg) filename) MAXPGPATH))
            MAXPGPATH]
        else ms) acc =
      acc ++ ((l.map (fun seg => canon (join (String.mk seg) filename))).filter
        (fun c => file_exists fs c)) := by
  induction l generalizing acc with
  | nil => simp
  | cons seg rest ih =>
      have h1 : (join (String.mk seg) filename).length ≤ MAXPGPATH - 1 := by
        have := hjoin seg (by simp)
        omega
      have h2 : (canon (join (String.mk seg) filename)).length ≤ MAXPGPATH - 1 := by
        have := hcanon seg (by simp)
        omega
      have ihr := fun acc2 =>
        ih acc2 (fun s hs => hjoin s (List.mem_cons_of_mem seg hs))
          (fun s hs => hcanon s (List.mem_cons_of_mem seg hs))
      simp only [List.foldl_cons, List.map_cons, List.filter_cons,
        strlcpyStr_eq_self _ MAXPGPATH h1, strlcpyStr_eq_self _ MAXPGPATH h2]
      by_cases hex : file_exists fs (canon (join (String.mk seg) filename)) = true
      · simp only [hex, if_true, ihr (acc ++ [canon (join (String.mk seg) filename)])]
        simp
      · simp only [Bool.not_eq_true] at hex
        simp only [hex, Bool.false_eq_true, if_false, ihr acc]

/-- C5: with the PATH variable available, `search_path` splits it on
the separator (the splitting loop keeps an empty trailing segment),
joins each directory segment with the filename, canonicalizes the
candidate, and records exactly the candidates that exist on disk, in
the exact order their directories appear in PATH. -/
theorem search_path_order (e : Env) (join : String → String → String)
    (canon : String → String) (filename : String) (fs : FS) (pl : String)
    (hpv : e.pathVar = some pl)
    (hjoin : ∀ seg ∈ pathSegments pl.data,
      (join (String.mk seg) filename).length < MAXPGPATH)
    (hcanon : ∀ seg ∈ pathSegments pl.data,
      (canon (join (String.mk seg) filename)).length < MAXPGPATH) :
    search_path e join canon filename fs =
      some (((pathSegments pl.data).map
          (fun seg => canon (join (String.mk seg) filename))).filter
        (fun c => file_exists fs c)) := by
  simp only [search_path, hpv]
  rw [search_fold_aux fs join canon filename (pathSegments pl.data) [] hjoin hcanon]
  simp

/-- The environment of C5's witness: PATH holds two directories and a
trailing separator. -/
def envPath : Env := { envOk with pathVar := some "/bin:/usr/bin:" }

/-- The filesystem of C5's witness: `tool` present in both PATH
directories. -/
def fsPath : FS :=
  [("/bin/tool", ⟨[], 0, 0, 420⟩), ("/usr/bin/tool", ⟨[], 0, 0, 420⟩)]

/-- Witness for C5 at a concrete PATH with a trailing separator. -/
theorem search_path_order_witness :
    search_path envPath (fun dir f => dir ++ "/" ++ f) (fun c => c) "tool"
      fsPath = some ["/bin/tool", "/usr/bin/tool"] := by
  have h := search_path_order envPath (fun dir f => dir ++ "/" ++ f)
    (fun c => c) "tool" fsPath "/bin:/usr/bin:" (by rfl) (by decide) (by decide)
  rw [h]
  rfl

end FileUtils
